import Mathlib

/-!
Shallow embedding of the STMAHM host-discovery core.

IPv4 addresses are `Nat` values (valid addresses are `< 2^32`); byte
buffers are `List Nat` (valid bytes are `< 256`).  The `ipnetwork`
crate's `Ipv4Network` is embedded with the bit-mask operations written
as truncating division (for `ip < 2^32`, `ip & netmask` equals
`ip / 2^h * 2^h` with `h` the number of host bits, and
`ip | hostmask` equals that plus `2^h - 1`).  Fallible Rust code
(`Result` / panicking `unwrap`) is embedded as `Option`.
-/

/-- Model of pnet's `MacAddr` (a tuple of six octets). -/
structure MacAddr where
  a : Nat
  b : Nat
  c : Nat
  d : Nat
  e : Nat
  f : Nat
deriving DecidableEq

/-- The six octets of a MAC address, in wire order. -/
def MacAddr.bytes (m : MacAddr) : List Nat := [m.a, m.b, m.c, m.d, m.e, m.f]

/-- pnet's `MacAddr::zero()`. -/
def MacAddr.zero : MacAddr := ⟨0, 0, 0, 0, 0, 0⟩

/-- `BROADCAST_MAC` from `src/scanner/arp.rs`: `ff:ff:ff:ff:ff:ff`. -/
def BROADCAST_MAC : MacAddr := ⟨255, 255, 255, 255, 255, 255⟩

/-- Modelled from the spec: the `InterfaceDescriptor` (`InterfaceInfo` in
`crate::models`, whose source file is not part of the visible core): the
scan origin's IPv4 address, its subnet size in bits (source field
`prefix_len`, named `plen` here), and its hardware address.  The opaque
link handle is not modelled. -/
structure InterfaceInfo where
  ip : Nat
  plen : Nat
  mac : MacAddr
deriving DecidableEq

/-- Model of `ipnetwork::Ipv4Network`: an address together with a subnet
size in bits (source field `prefix`, named `plen` here). -/
structure Ipv4Network where
  ip : Nat
  plen : Nat
deriving DecidableEq

/-- Number of host bits of the network. -/
def Ipv4Network.hostBits (n : Ipv4Network) : Nat := 32 - n.plen

/-- `Ipv4Network::size()`: the number of addresses in the network. -/
def Ipv4Network.size (n : Ipv4Network) : Nat := 2 ^ n.hostBits

/-- `Ipv4Network::new`: fails when the subnet size exceeds 32 bits
(the address itself is a `u32` by type). -/
def Ipv4Network.new (ip plen : Nat) : Option Ipv4Network :=
  if plen ≤ 32 then some ⟨ip, plen⟩ else none

/-- `Ipv4Network::network()`: the address with its host bits cleared. -/
def Ipv4Network.network (n : Ipv4Network) : Nat :=
  n.ip / n.size * n.size

/-- `Ipv4Network::broadcast()`: the address with its host bits set. -/
def Ipv4Network.broadcast (n : Ipv4Network) : Nat :=
  n.network + n.size - 1

/-- `Ipv4Network::contains(ip)`: the masked address equals the network
address. -/
def Ipv4Network.contains (n : Ipv4Network) (x : Nat) : Bool :=
  x / n.size * n.size == n.network

/-- `Ipv4Network::iter()`: every address of the network in ascending
order, starting at the network address. -/
def Ipv4Network.iter (n : Ipv4Network) : List Nat :=
  (List.range n.size).map (fun i => n.network + i)

/-- `is_special_address` from `src/network/subnet.rs`. -/
def is_special_address (ip : Nat) (subnet : Ipv4Network) : Bool :=
  ip == subnet.network || ip == subnet.broadcast

/-- The host list built inside `calculate_subnet_ips`: every address of
the subnet that is not the network or broadcast address. -/
def hostsOf (subnet : Ipv4Network) : List Nat :=
  subnet.iter.filter (fun ip => ! is_special_address ip subnet)

/-- `calculate_subnet_ips` from `src/network/subnet.rs`.  The `Result`
is embedded as `Option`; the stderr log line is a side channel and is
not modelled. -/
def calculate_subnet_ips (interface : InterfaceInfo) :
    Option (Ipv4Network × List Nat) :=
  match Ipv4Network.new interface.ip interface.plen with
  | none => none
  | some network =>
    match Ipv4Network.new network.network interface.plen with
    | none => none
    | some subnet => some (subnet, hostsOf subnet)

/-- The normalized subnet computed by `calculate_subnet_ips`. -/
def subnetOf (interface : InterfaceInfo) : Ipv4Network :=
  ⟨(⟨interface.ip, interface.plen⟩ : Ipv4Network).network, interface.plen⟩

lemma calculate_subnet_ips_eq (interface : InterfaceInfo)
    (hp : interface.plen ≤ 32) :
    calculate_subnet_ips interface =
      some (subnetOf interface, hostsOf (subnetOf interface)) := by
  simp [calculate_subnet_ips, Ipv4Network.new, hp, subnetOf]

/-! ## Byte buffers and pnet packet views

A packet buffer is a `List Nat` of octets.  pnet's mutable packet
constructors return `None` when the buffer is smaller than the
protocol's minimum packet size (14 for Ethernet, 28 for ARP); a
successful constructor is a view on the buffer, modelled as the buffer
itself.  Field setters overwrite a fixed byte range; multi-byte fields
are big-endian. -/

/-- Overwrite the bytes of `buf` starting at offset `off` with `vals`,
leaving the rest of the buffer unchanged (the callers keep
`off + vals.length` within the buffer). -/
def setBytes : List Nat → Nat → List Nat → List Nat
  | buf, _, [] => buf
  | [], _, _ => []
  | _ :: buf, 0, v :: vals => v :: setBytes buf 0 vals
  | b :: buf, off + 1, vals => b :: setBytes buf off vals

/-- Read `len` bytes of `buf` starting at offset `off`. -/
def getBytes (buf : List Nat) (off len : Nat) : List Nat :=
  (buf.drop off).take len

/-- Big-endian encoding of a 16-bit value. -/
def be16 (v : Nat) : List Nat := [v / 256 % 256, v % 256]

/-- Big-endian decoding of the 16-bit field at offset `off`. -/
def get16 (buf : List Nat) (off : Nat) : Nat :=
  256 * buf.getD off 0 + buf.getD (off + 1) 0

/-- The four octets of an IPv4 address, in wire order. -/
def ipv4Bytes (ip : Nat) : List Nat :=
  [ip / 2 ^ 24 % 256, ip / 2 ^ 16 % 256, ip / 2 ^ 8 % 256, ip % 256]

/-- pnet's `EtherTypes::Arp` (0x0806). -/
def ETHERTYPE_ARP : Nat := 0x0806

/-- pnet's `EtherTypes::Ipv4` (0x0800). -/
def ETHERTYPE_IPV4 : Nat := 0x0800

/-- pnet's `ArpHardwareTypes::Ethernet` (1). -/
def ARP_HW_ETHERNET : Nat := 1

/-- pnet's `ArpOperations::Request` (1). -/
def ARP_OP_REQUEST : Nat := 1

/-- pnet's `ArpOperations::Reply` (2). -/
def ARP_OP_REPLY : Nat := 2

/-- `EthernetPacket::new` / `MutableEthernetPacket::new`: a view exists
only when the buffer holds at least the 14-byte Ethernet header. -/
def EthernetPacket.new (buf : List Nat) : Option (List Nat) :=
  if 14 ≤ buf.length then some buf else none

/-- `ArpPacket::new` / `MutableArpPacket::new`: a view exists only when
the buffer holds at least the 28-byte ARP packet. -/
def ArpPacket.new (buf : List Nat) : Option (List Nat) :=
  if 28 ≤ buf.length then some buf else none

/-- Ethernet `get_destination`: octets 0-5. -/
def EthernetPacket.get_destination (p : List Nat) : List Nat := getBytes p 0 6

/-- Ethernet `get_source`: octets 6-11. -/
def EthernetPacket.get_source (p : List Nat) : List Nat := getBytes p 6 6

/-- Ethernet `get_ethertype`: octets 12-13, big-endian. -/
def EthernetPacket.get_ethertype (p : List Nat) : Nat := get16 p 12

/-- Ethernet `payload()`: everything after the 14-byte header. -/
def EthernetPacket.payload (p : List Nat) : List Nat := p.drop 14

/-- ARP `get_operation`: octets 6-7, big-endian. -/
def ArpPacket.get_operation (p : List Nat) : Nat := get16 p 6

/-- ARP `get_sender_hw_addr`: octets 8-13. -/
def ArpPacket.get_sender_hw_addr (p : List Nat) : List Nat := getBytes p 8 6

/-- ARP `get_sender_proto_addr`: octets 14-17 as an IPv4 address. -/
def ArpPacket.get_sender_proto_addr (p : List Nat) : Nat :=
  p.getD 14 0 * 2 ^ 24 + p.getD 15 0 * 2 ^ 16 + p.getD 16 0 * 2 ^ 8 + p.getD 17 0

/-- ARP `get_target_hw_addr`: octets 18-23. -/
def ArpPacket.get_target_hw_addr (p : List Nat) : List Nat := getBytes p 18 6

/-- ARP `get_target_proto_addr`: octets 24-27 as an IPv4 address. -/
def ArpPacket.get_target_proto_addr (p : List Nat) : Nat :=
  p.getD 24 0 * 2 ^ 24 + p.getD 25 0 * 2 ^ 16 + p.getD 26 0 * 2 ^ 8 + p.getD 27 0

/-- `create_arp_request` from `src/scanner/arp.rs`.  The two panicking
constructor `unwrap`s are embedded as `Option`: a `none` result models
a panic.  The Ethernet header is built in the 14-byte slice
`buffer[..14]` and the ARP packet in the 28-byte slice
`buffer[14..42]`, in the source's setter order. -/
def create_arp_request (source_mac : MacAddr) (source_ip target_ip : Nat) :
    Option (List Nat) :=
  let buffer := List.replicate 42 0
  match EthernetPacket.new (buffer.take 14) with
  | none => none
  | some eth0 =>
    let eth1 := setBytes eth0 0 BROADCAST_MAC.bytes
    let eth2 := setBytes eth1 6 source_mac.bytes
    let eth3 := setBytes eth2 12 (be16 ETHERTYPE_ARP)
    let buffer1 := eth3 ++ buffer.drop 14
    match ArpPacket.new (getBytes buffer1 14 28) with
    | none => none
    | some arp0 =>
      let arp1 := setBytes arp0 0 (be16 ARP_HW_ETHERNET)
      let arp2 := setBytes arp1 2 (be16 ETHERTYPE_IPV4)
      let arp3 := setBytes arp2 4 [6]
      let arp4 := setBytes arp3 5 [4]
      let arp5 := setBytes arp4 6 (be16 ARP_OP_REQUEST)
      let arp6 := setBytes arp5 8 source_mac.bytes
      let arp7 := setBytes arp6 14 (ipv4Bytes source_ip)
      let arp8 := setBytes arp7 18 MacAddr.zero.bytes
      let arp9 := setBytes arp8 24 (ipv4Bytes target_ip)
      some (buffer1.take 14 ++ arp9)

/-- The 42 bytes `create_arp_request` produces, written out: broadcast
destination, source hardware address, ARP ethertype, then the ARP
packet (Ethernet hardware type, IPv4 protocol type, address sizes 6 and
4, operation Request, sender addresses, zero target hardware address,
target protocol address). -/
def arpRequestBytes (source_mac : MacAddr) (source_ip target_ip : Nat) :
    List Nat :=
  [255, 255, 255, 255, 255, 255,
   source_mac.a, source_mac.b, source_mac.c, source_mac.d, source_mac.e, source_mac.f,
   8, 6,
   0, 1, 8, 0, 6, 4, 0, 1,
   source_mac.a, source_mac.b, source_mac.c, source_mac.d, source_mac.e, source_mac.f,
   source_ip / 2 ^ 24 % 256, source_ip / 2 ^ 16 % 256, source_ip / 2 ^ 8 % 256, source_ip % 256,
   0, 0, 0, 0, 0, 0,
   target_ip / 2 ^ 24 % 256, target_ip / 2 ^ 16 % 256, target_ip / 2 ^ 8 % 256, target_ip % 256]

set_option maxHeartbeats 1000000 in
lemma create_arp_request_eq (source_mac : MacAddr) (source_ip target_ip : Nat) :
    create_arp_request source_mac source_ip target_ip =
      some (arpRequestBytes source_mac source_ip target_ip) := rfl

/-! ## The ARP receiver thread of `active_arp_scan`

The shared `HashMap<Ipv4Addr, MacAddr>` behind the mutex is embedded as
an association list; `insert` of an absent key prepends.  All map
access in the source is serialized by the mutex, so any concurrent
execution processes the incoming frames in some sequential order; the
packet list below is that (arbitrary) order. -/

/-- The discovery map: IPv4 address to the six octets of the sender
hardware address. -/
abbrev DiscoveryMap := List (Nat × List Nat)

/-- One iteration of the receiver thread's packet handling in
`active_arp_scan` (`src/scanner/arp.rs`): parse the frame as Ethernet,
require ethertype ARP, parse the payload as ARP, require operation
Reply, and insert the sender only when it lies in the subnet, is not
the network or broadcast address, and is not already mapped. -/
def processPacket (subnet : Ipv4Network) (map : DiscoveryMap)
    (packet : List Nat) : DiscoveryMap :=
  match EthernetPacket.new packet with
  | none => map
  | some ethernet =>
    if EthernetPacket.get_ethertype ethernet == ETHERTYPE_ARP then
      match ArpPacket.new (EthernetPacket.payload ethernet) with
      | none => map
      | some arp =>
        if ArpPacket.get_operation arp == ARP_OP_REPLY then
          let sender_ip := ArpPacket.get_sender_proto_addr arp
          let sender_mac := ArpPacket.get_sender_hw_addr arp
          if subnet.contains sender_ip && ! is_special_address sender_ip subnet then
            if (map.lookup sender_ip).isSome then map
            else (sender_ip, sender_mac) :: map
          else map
        else map
    else map

/-- The parse-and-validate part of `processPacket`: the sender address
and hardware address of a frame that is a valid ARP reply for `subnet`
(an ARP-ethertype Ethernet frame, operation Reply, sender inside the
subnet and not the network or broadcast address); `none` otherwise. -/
def validReply (subnet : Ipv4Network) (packet : List Nat) :
    Option (Nat × List Nat) :=
  match EthernetPacket.new packet with
  | none => none
  | some ethernet =>
    if EthernetPacket.get_ethertype ethernet == ETHERTYPE_ARP then
      match ArpPacket.new (EthernetPacket.payload ethernet) with
      | none => none
      | some arp =>
        if ArpPacket.get_operation arp == ARP_OP_REPLY then
          if subnet.contains (ArpPacket.get_sender_proto_addr arp)
              && ! is_special_address (ArpPacket.get_sender_proto_addr arp) subnet then
            some (ArpPacket.get_sender_proto_addr arp, ArpPacket.get_sender_hw_addr arp)
          else none
        else none
    else none

/-- The discovery map after the receiver thread has handled the given
frames, in arrival order, starting from the empty map. -/
def active_arp_receive (subnet : Ipv4Network) (packets : List (List Nat)) :
    DiscoveryMap :=
  packets.foldl (processPacket subnet) []

/-! ## The sending rounds of `active_arp_scan` -/

/-- The `remaining` list computed at the start of each round: the
targets not yet present in the discovered map. -/
def remainingTargets (discovered : DiscoveryMap) (target_ips : List Nat) :
    List Nat :=
  target_ips.filter (fun ip => ! (discovered.lookup ip).isSome)

/-- The frames sent during one round: one ARP request per remaining
target. -/
def roundRequests (interface : InterfaceInfo) (discovered : DiscoveryMap)
    (target_ips : List Nat) : List (Option (List Nat)) :=
  (remainingTargets discovered target_ips).map
    (fun target_ip => create_arp_request interface.mac interface.ip target_ip)

/-- The sleep taken at the end of a round:
`ARP_TIMEOUT_MS.saturating_sub(elapsed)` (in milliseconds); `Nat`
subtraction is saturating. -/
def round_wait (timeout_ms elapsed : Nat) : Nat := timeout_ms - elapsed

/-! ## The reception window of `active_arp_scan`

`total_timeout` is the receiver thread's time budget; the thread loops
while the current instant is before `deadline = start + total_timeout`,
blocking in `rx.next()` between checks (the channel is opened with the
default configuration, whose read timeout is `None`, so `rx.next()`
returns only when a frame or a receive error arrives).  `receiverLoop`
replays that loop over a timed event trace: each event is the instant
at which `rx.next()` returns together with the frame it delivered
(`none` for a receive error, after which the thread sleeps briefly and
re-checks).  The result is the final discovery map and the instant at
which the loop exited, `none` when the loop is still blocked in
`rx.next()` with no further event ever arriving. -/

/-- `total_timeout` from `active_arp_scan`:
`ARP_TIMEOUT_MS * ARP_ROUNDS + 500` milliseconds (the scan constants
live in the configuration collaborator and are kept as parameters). -/
def total_timeout (timeout_ms rounds : Nat) : Nat := timeout_ms * rounds + 500

/-- The receiver thread's loop over a timed event trace, starting its
deadline check at instant `now` with map `map`. -/
def receiverLoop (subnet : Ipv4Network) (deadline : Nat) :
    Nat → DiscoveryMap → List (Nat × Option (List Nat)) →
      DiscoveryMap × Option Nat
  | now, map, [] =>
    if now < deadline then (map, none) else (map, some now)
  | now, map, (t, ev) :: rest =>
    if now < deadline then
      match ev with
      | some packet => receiverLoop subnet deadline t (processPacket subnet map packet) rest
      | none => receiverLoop subnet deadline t map rest
    else (map, some now)

/-! ## The latency prober (`src/scanner/icmp.rs`)

The echo facility (`surge_ping`) is embedded as an oracle: for a host
and an attempt index it yields `some t` when that attempt's
`pinger.timeout(PING_TIMEOUT).ping(...)` returned a reply after `t`
elapsed wall-clock time, and `none` when the attempt failed or timed
out (the per-attempt timeout is internal to the oracle).  The retry
count `PING_RETRIES` is a configuration parameter. -/

/-- `ping_host_with_retries`: try attempts `0, 1, ...` in order and
return the elapsed time of the first attempt that received a reply. -/
def ping_host_with_retries (retries : Nat) (echo : Nat → Option Nat) :
    Option Nat :=
  (List.range retries).findSome? echo

/-- The latency map built by the probe tasks of `icmp_scan`: every host
whose retry loop succeeded, with its measured duration.  Each host is
spawned exactly once; tasks only insert distinct keys, so the
completion order does not affect the map's contents. -/
def icmp_scan_times (retries : Nat) (echo : Nat → Nat → Option Nat)
    (arp_hosts : List Nat) : List (Nat × Nat) :=
  arp_hosts.filterMap
    (fun ip => (ping_host_with_retries retries (echo ip)).map (fun d => (ip, d)))

/-- `icmp_scan`: `client_ok` is whether `Client::new` succeeded.  The
returned flag records whether the degradation warning was emitted on
the diagnostic side channel. -/
def icmp_scan (client_ok : Bool) (retries : Nat)
    (echo : Nat → Nat → Option Nat) (arp_hosts : List Nat) :
    Except String (List (Nat × Nat)) × Bool :=
  if arp_hosts.isEmpty then (Except.ok [], false)
  else if client_ok then (Except.ok (icmp_scan_times retries echo arp_hosts), false)
  else (Except.ok [], true)

/-! ## Lemmas about the receiver step -/

lemma processPacket_eq (subnet : Ipv4Network) (map : DiscoveryMap)
    (packet : List Nat) :
    processPacket subnet map packet =
      match validReply subnet packet with
      | none => map
      | some e => if (map.lookup e.1).isSome then map else e :: map := by
  unfold processPacket validReply
  cases EthernetPacket.new packet with
  | none => rfl
  | some ethernet =>
    simp only
    split
    · cases ArpPacket.new (EthernetPacket.payload ethernet) with
      | none => rfl
      | some arp =>
        simp only
        split
        · split <;> rfl
        · rfl
    · rfl

lemma validReply_sound (subnet : Ipv4Network) (packet : List Nat)
    (j : Nat) (mac : List Nat) (h : validReply subnet packet = some (j, mac)) :
    subnet.contains j = true ∧ is_special_address j subnet = false := by
  unfold validReply at h
  repeat' split at h
  all_goals simp only [Option.some.injEq, Prod.mk.injEq, reduceCtorEq] at h
  obtain ⟨rfl, -⟩ := h
  rename_i hcond
  simp only [Bool.and_eq_true, Bool.not_eq_true'] at hcond
  exact ⟨hcond.1, hcond.2⟩

lemma arp_foldl_lookup (subnet : Ipv4Network) (packets : List (List Nat)) :
    ∀ (m : DiscoveryMap) (ip : Nat),
      (packets.foldl (processPacket subnet) m).lookup ip =
        (m.lookup ip).or
          (((packets.filterMap (validReply subnet)).find?
              (fun e => e.1 == ip)).map Prod.snd) := by
  induction packets with
  | nil => intro m ip; simp
  | cons p ps ih =>
    intro m ip
    rw [List.foldl_cons, ih, processPacket_eq, List.filterMap_cons]
    cases hv : validReply subnet p with
    | none => rfl
    | some e =>
      obtain ⟨j, mac⟩ := e
      by_cases hji : j = ip
      · subst hji
        rw [List.find?_cons_of_pos _ (by simp)]
        by_cases hs : (m.lookup j).isSome
        · obtain ⟨v, hv'⟩ := Option.isSome_iff_exists.mp hs
          simp [hs, hv']
        · rw [Option.not_isSome_iff_eq_none] at hs
          simp [hs, List.lookup_cons]
      · rw [List.find?_cons_of_neg _ (by simpa using hji)]
        by_cases hs : (m.lookup j).isSome
        · simp [hs]
        · simp only [hs, if_false, Bool.false_eq_true]
          rw [List.lookup_cons]
          simp [show (ip == j) = false by simpa using Ne.symm hji]

lemma arp_foldl_keys_nodup (subnet : Ipv4Network) (packets : List (List Nat)) :
    ∀ m : DiscoveryMap, (m.map Prod.fst).Nodup →
      ((packets.foldl (processPacket subnet) m).map Prod.fst).Nodup := by
  induction packets with
  | nil => intro m hm; simpa using hm
  | cons p ps ih =>
    intro m hm
    rw [List.foldl_cons]
    apply ih
    rw [processPacket_eq]
    cases hv : validReply subnet p with
    | none => exact hm
    | some e =>
      obtain ⟨j, mac⟩ := e
      by_cases hs : ((m.lookup j)).isSome
      · simpa [hs] using hm
      · simp only [hs, if_false, Bool.false_eq_true, List.map_cons]
        refine List.nodup_cons.mpr ⟨?_, hm⟩
        intro hmem
        apply hs
        rw [List.lookup_isSome_iff]
        obtain ⟨q, hq, hq1⟩ := List.mem_map.mp hmem
        exact ⟨q, hq, by simp [hq1]⟩

/-- C1: first-seen-wins in the discovery map: the map built by the
receiver never holds two entries for one IPv4 address, the entry
recorded for an address is the sender hardware address of the first
valid ARP reply for it in the processed frame order (any serialization
of concurrent arrivals), and processing a further valid reply for an
already-mapped address leaves the map unchanged. -/
theorem arp_discovery_first_seen_wins (subnet : Ipv4Network)
    (packets : List (List Nat)) :
    ((active_arp_receive subnet packets).map Prod.fst).Nodup
    ∧ (∀ ip, (active_arp_receive subnet packets).lookup ip =
        (((packets.filterMap (validReply subnet)).find?
            (fun e => e.1 == ip)).map Prod.snd))
    ∧ (∀ (packet : List Nat) (m : DiscoveryMap) (ip : Nat) (mac : List Nat),
        validReply subnet packet = some (ip, mac) →
        (m.lookup ip).isSome = true →
        processPacket subnet m packet = m) := by
  refine ⟨arp_foldl_keys_nodup subnet packets [] (by simp), ?_, ?_⟩
  · intro ip
    rw [active_arp_receive, arp_foldl_lookup]
    simp
  · intro packet m ip mac hv hs
    rw [processPacket_eq, hv]
    simp [hs]

/-- A concrete /24 subnet (192.168.1.0/24) used by the evaluation
theorems below. -/
def subnet0 : Ipv4Network := ⟨3232235776, 24⟩

/-- A concrete well-formed ARP reply frame: sender 192.168.1.5 with
hardware address 11:22:33:44:55:66. -/
def pkt0 : List Nat :=
  [0, 0, 0, 0, 0, 0, 0, 0, 0, 0, 0, 0, 8, 6,
   0, 1, 8, 0, 6, 4, 0, 2, 17, 34, 51, 68, 85, 102,
   192, 168, 1, 5, 0, 0, 0, 0, 0, 0, 192, 168, 1, 1]

/-- C1 witness: a second reply for 192.168.1.5 is a no-op on a map that
already holds that address. -/
theorem arp_discovery_first_seen_wins_witness :
    processPacket subnet0 [(3232235781, [9, 9, 9, 9, 9, 9])] pkt0 =
      [(3232235781, [9, 9, 9, 9, 9, 9])] :=
  (arp_discovery_first_seen_wins subnet0 []).2.2 pkt0
    [(3232235781, [9, 9, 9, 9, 9, 9])] 3232235781 [17, 34, 51, 68, 85, 102]
    (by decide) (by decide)

/-- C2: the receiver step changes the recorded binding of an address
only when the processed frame is a valid ARP reply from that address,
lying inside the scan's subnet and distinct from its network and
broadcast addresses; replies failing that test are never inserted. -/
theorem arp_reply_insert_guard (subnet : Ipv4Network) (m : DiscoveryMap)
    (packet : List Nat) (ip : Nat)
    (h : (processPacket subnet m packet).lookup ip ≠ m.lookup ip) :
    subnet.contains ip = true ∧ is_special_address ip subnet = false
    ∧ ∃ mac, validReply subnet packet = some (ip, mac) := by
  rw [processPacket_eq] at h
  cases hv : validReply subnet packet with
  | none => rw [hv] at h; exact absurd rfl h
  | some e =>
    obtain ⟨j, mac⟩ := e
    rw [hv] at h
    by_cases hs : ((m.lookup j)).isSome
    · simp [hs] at h
    · simp only [hs, if_false, Bool.false_eq_true] at h
      by_cases hji : j = ip
      · obtain ⟨h1, h2⟩ := validReply_sound subnet packet j mac hv
        subst hji
        exact ⟨h1, h2, mac, rfl⟩
      · rw [List.lookup_cons] at h
        simp [show (ip == j) = false by simpa using Ne.symm hji] at h

/-- C2 witness: processing the concrete valid reply `pkt0` on the empty
map changes the binding of 192.168.1.5, and that address is inside the
subnet and neither its network nor its broadcast address. -/
theorem arp_reply_insert_guard_witness :
    subnet0.contains 3232235781 = true
    ∧ is_special_address 3232235781 subnet0 = false
    ∧ ∃ mac, validReply subnet0 pkt0 = some (3232235781, mac) :=
  arp_reply_insert_guard subnet0 [] pkt0 3232235781 (by decide)

/-! ## Lemmas about subnet enumeration -/

lemma Ipv4Network.size_pos (n : Ipv4Network) : 0 < n.size :=
  Nat.pos_pow_of_pos _ (by omega)

lemma Ipv4Network.size_dvd_network (n : Ipv4Network) : n.size ∣ n.network :=
  Dvd.intro_left _ rfl

lemma hostsOf_pairwise (n : Ipv4Network) : (hostsOf n).Pairwise (· < ·) :=
  ((List.pairwise_lt_range n.size).map (fun i => n.network + i)
    (fun a b h => by show n.network + a < n.network + b; omega)).filter _

lemma mem_hostsOf (n : Ipv4Network) (x : Nat) :
    x ∈ hostsOf n ↔
      (n.contains x = true ∧ x ≠ n.network ∧ x ≠ n.broadcast) := by
  have hs : 0 < n.size := n.size_pos
  have key : (∃ i, i < n.size ∧ n.network + i = x) ↔ n.contains x = true := by
    constructor
    · rintro ⟨i, hi, rfl⟩
      have hdiv : (n.network + i) / n.size = n.ip / n.size := by
        rw [Ipv4Network.network, Nat.add_comm, Nat.mul_comm,
          Nat.add_mul_div_left _ _ hs, Nat.div_eq_of_lt hi, Nat.zero_add]
      rw [Ipv4Network.contains, beq_iff_eq, hdiv]
      rfl
    · intro hc
      rw [Ipv4Network.contains, beq_iff_eq] at hc
      have hd := Nat.div_add_mod x n.size
      have hm : x % n.size < n.size := Nat.mod_lt _ hs
      rw [Nat.mul_comm, hc] at hd
      exact ⟨x - n.network, by omega, by omega⟩
  constructor
  · intro hx
    obtain ⟨hmem, hpred⟩ := List.mem_filter.mp hx
    simp only [Ipv4Network.iter, List.mem_map, List.mem_range] at hmem
    obtain ⟨i, hi, hix⟩ := hmem
    simp only [is_special_address, Bool.not_eq_true', Bool.or_eq_false_iff,
      beq_eq_false_iff_ne, ne_eq] at hpred
    exact ⟨key.mp ⟨i, hi, hix⟩, hpred.1, hpred.2⟩
  · rintro ⟨hc, hne1, hne2⟩
    apply List.mem_filter.mpr
    refine ⟨?_, ?_⟩
    · obtain ⟨i, hi, hix⟩ := key.mpr hc
      simp only [Ipv4Network.iter, List.mem_map, List.mem_range]
      exact ⟨i, hi, hix⟩
    · simp only [is_special_address, Bool.not_eq_true', Bool.or_eq_false_iff,
        beq_eq_false_iff_ne, ne_eq]
      exact ⟨hne1, hne2⟩

lemma hostsOf_plen30 (n : Ipv4Network) (hp : n.plen = 30) :
    (hostsOf n).length = 2 := by
  obtain ⟨ip, p⟩ := n
  simp only at hp
  subst hp
  have hsz : (⟨ip, 30⟩ : Ipv4Network).size = 4 := rfl
  set net := (⟨ip, 30⟩ : Ipv4Network).network with hnet
  have hbc : (⟨ip, 30⟩ : Ipv4Network).broadcast = net + 3 := by
    rw [Ipv4Network.broadcast, hsz, ← hnet]
    omega
  have hiter : (⟨ip, 30⟩ : Ipv4Network).iter = [net, net + 1, net + 2, net + 3] := by
    rw [Ipv4Network.iter, hsz]
    rfl
  have c0 : ((net == net) || (net == net + 3)) = true := by simp
  have c1 : ((net + 1 == net) || (net + 1 == net + 3)) = false := by
    simp only [Bool.or_eq_false_iff, beq_eq_false_iff_ne, ne_eq]
    omega
  have c2 : ((net + 2 == net) || (net + 2 == net + 3)) = false := by
    simp only [Bool.or_eq_false_iff, beq_eq_false_iff_ne, ne_eq]
    omega
  have c3 : ((net + 3 == net) || (net + 3 == net + 3)) = true := by simp
  rw [hostsOf, hiter]
  simp only [is_special_address, hbc, ← hnet]
  rw [List.filter_cons, List.filter_cons, List.filter_cons, List.filter_cons,
    List.filter_nil]
  simp [c0, c1, c2, c3]

lemma hostsOf_plen31 (n : Ipv4Network) (hp : n.plen = 31) :
    hostsOf n = [] := by
  obtain ⟨ip, p⟩ := n
  simp only at hp
  subst hp
  have hsz : (⟨ip, 31⟩ : Ipv4Network).size = 2 := rfl
  set net := (⟨ip, 31⟩ : Ipv4Network).network with hnet
  have hbc : (⟨ip, 31⟩ : Ipv4Network).broadcast = net + 1 := by
    rw [Ipv4Network.broadcast, hsz, ← hnet]
    omega
  have hiter : (⟨ip, 31⟩ : Ipv4Network).iter = [net, net + 1] := by
    rw [Ipv4Network.iter, hsz]
    rfl
  have c0 : ((net == net) || (net == net + 1)) = true := by simp
  have c1 : ((net + 1 == net) || (net + 1 == net + 1)) = true := by simp
  rw [hostsOf, hiter]
  simp only [is_special_address, hbc, ← hnet]
  rw [List.filter_cons, List.filter_cons, List.filter_nil]
  simp [c0, c1]

lemma hostsOf_plen32 (n : Ipv4Network) (hp : n.plen = 32) :
    hostsOf n = [] := by
  obtain ⟨ip, p⟩ := n
  simp only at hp
  subst hp
  have hsz : (⟨ip, 32⟩ : Ipv4Network).size = 1 := rfl
  set net := (⟨ip, 32⟩ : Ipv4Network).network with hnet
  have hbc : (⟨ip, 32⟩ : Ipv4Network).broadcast = net := by
    rw [Ipv4Network.broadcast, hsz, ← hnet]
    omega
  have hiter : (⟨ip, 32⟩ : Ipv4Network).iter = [net] := by
    rw [Ipv4Network.iter, hsz]
    rfl
  have c0 : ((net == net) || (net == net)) = true := by simp
  rw [hostsOf, hiter]
  simp only [is_special_address, hbc, ← hnet]
  rw [List.filter_cons, List.filter_nil]
  simp [c0]

/-- C3: for every valid address and subnet-size pair,
`calculate_subnet_ips` succeeds and returns the ascending,
duplicate-free list of exactly the subnet's addresses other than the
network and broadcast addresses; a /30 subnet yields exactly 2 hosts
and a /31 or /32 subnet yields an empty list. -/
theorem calculate_subnet_ips_spec (interface : InterfaceInfo)
    (_hip : interface.ip < 2 ^ 32) (hp : interface.plen ≤ 32) :
    ∃ subnet hosts,
      calculate_subnet_ips interface = some (subnet, hosts)
      ∧ hosts.Pairwise (· < ·)
      ∧ (∀ x, x ∈ hosts ↔
          (subnet.contains x = true ∧ x ≠ subnet.network ∧ x ≠ subnet.broadcast))
      ∧ (interface.plen = 30 → hosts.length = 2)
      ∧ (interface.plen = 31 ∨ interface.plen = 32 → hosts = []) := by
  refine ⟨subnetOf interface, hostsOf (subnetOf interface),
    calculate_subnet_ips_eq interface hp, hostsOf_pairwise _,
    fun x => mem_hostsOf _ x, fun h30 => hostsOf_plen30 _ h30, fun h3132 => ?_⟩
  cases h3132 with
  | inl h => exact hostsOf_plen31 _ h
  | inr h => exact hostsOf_plen32 _ h

/-- C3 witness: the interface 192.168.1.10/30. -/
theorem calculate_subnet_ips_spec_witness :
    ∃ subnet hosts,
      calculate_subnet_ips ⟨3232235786, 30, ⟨1, 2, 3, 4, 5, 6⟩⟩ =
        some (subnet, hosts)
      ∧ hosts.Pairwise (· < ·)
      ∧ (∀ x, x ∈ hosts ↔
          (subnet.contains x = true ∧ x ≠ subnet.network ∧ x ≠ subnet.broadcast))
      ∧ ((⟨3232235786, 30, ⟨1, 2, 3, 4, 5, 6⟩⟩ : InterfaceInfo).plen = 30 →
          hosts.length = 2)
      ∧ ((⟨3232235786, 30, ⟨1, 2, 3, 4, 5, 6⟩⟩ : InterfaceInfo).plen = 31 ∨
          (⟨3232235786, 30, ⟨1, 2, 3, 4, 5, 6⟩⟩ : InterfaceInfo).plen = 32 →
          hosts = []) :=
  calculate_subnet_ips_spec ⟨3232235786, 30, ⟨1, 2, 3, 4, 5, 6⟩⟩
    (by decide) (by decide)

/-- C10: `calculate_subnet_ips` depends only on the derived network
address and the subnet size: two interfaces with equal sizes whose
addresses lie in the same subnet produce identical results. -/
theorem calculate_subnet_ips_network_only (i1 i2 : InterfaceInfo)
    (hp : i1.plen = i2.plen)
    (hnet : (⟨i1.ip, i1.plen⟩ : Ipv4Network).network =
      (⟨i2.ip, i2.plen⟩ : Ipv4Network).network) :
    calculate_subnet_ips i1 = calculate_subnet_ips i2 := by
  by_cases hple : i1.plen ≤ 32
  · rw [calculate_subnet_ips_eq i1 hple, calculate_subnet_ips_eq i2 (hp ▸ hple)]
    rw [show subnetOf i1 = subnetOf i2 from by rw [subnetOf, subnetOf, hnet, hp]]
  · have h2 : ¬ i2.plen ≤ 32 := hp ▸ hple
    simp [calculate_subnet_ips, Ipv4Network.new, hple, h2]

/-- C10 witness: 192.168.1.10/24 and 192.168.1.20/24 yield identical
results. -/
theorem calculate_subnet_ips_network_only_witness :
    calculate_subnet_ips ⟨3232235786, 24, ⟨1, 2, 3, 4, 5, 6⟩⟩ =
      calculate_subnet_ips ⟨3232235796, 24, ⟨6, 5, 4, 3, 2, 1⟩⟩ :=
  calculate_subnet_ips_network_only _ _ rfl (by decide)

/-- C9: `create_arp_request` always succeeds (both packet-constructor
`unwrap`s are reachable only on the `some` path, because the 14-byte
and 28-byte slices meet the constructors' minimum sizes) and returns a
buffer of exactly 42 bytes. -/
theorem create_arp_request_total (source_mac : MacAddr)
    (source_ip target_ip : Nat) :
    ∃ buf, create_arp_request source_mac source_ip target_ip = some buf
      ∧ buf.length = 42 :=
  ⟨arpRequestBytes source_mac source_ip target_ip,
    create_arp_request_eq source_mac source_ip target_ip, rfl⟩

/-- C5: the request frame built by `create_arp_request` is addressed to
the broadcast hardware address and carries an ARP packet of operation
Request whose sender hardware and protocol addresses are the origin's,
whose target protocol address is the candidate address, and whose
target hardware address is all zeros. -/
theorem create_arp_request_fields (source_mac : MacAddr)
    (source_ip target_ip : Nat)
    (hs : source_ip < 2 ^ 32) (ht : target_ip < 2 ^ 32) :
    ∃ buf, create_arp_request source_mac source_ip target_ip = some buf
      ∧ EthernetPacket.get_destination buf = BROADCAST_MAC.bytes
      ∧ EthernetPacket.get_ethertype buf = ETHERTYPE_ARP
      ∧ ArpPacket.get_operation (EthernetPacket.payload buf) = ARP_OP_REQUEST
      ∧ ArpPacket.get_sender_hw_addr (EthernetPacket.payload buf) = source_mac.bytes
      ∧ ArpPacket.get_sender_proto_addr (EthernetPacket.payload buf) = source_ip
      ∧ ArpPacket.get_target_proto_addr (EthernetPacket.payload buf) = target_ip
      ∧ ArpPacket.get_target_hw_addr (EthernetPacket.payload buf) = MacAddr.zero.bytes := by
  refine ⟨arpRequestBytes source_mac source_ip target_ip,
    create_arp_request_eq source_mac source_ip target_ip,
    rfl, rfl, rfl, rfl, ?_, ?_, rfl⟩
  · show source_ip / 16777216 % 256 * 16777216 + source_ip / 65536 % 256 * 65536
      + source_ip / 256 % 256 * 256 + source_ip % 256 = source_ip
    omega
  · show target_ip / 16777216 % 256 * 16777216 + target_ip / 65536 % 256 * 65536
      + target_ip / 256 % 256 * 256 + target_ip % 256 = target_ip
    omega

/-- C5 witness: the request for target 192.168.1.12 from origin
192.168.1.10 with hardware address 01:02:03:04:05:06. -/
theorem create_arp_request_fields_witness :
    ∃ buf, create_arp_request ⟨1, 2, 3, 4, 5, 6⟩ 3232235786 3232235788 = some buf
      ∧ EthernetPacket.get_destination buf = BROADCAST_MAC.bytes
      ∧ EthernetPacket.get_ethertype buf = ETHERTYPE_ARP
      ∧ ArpPacket.get_operation (EthernetPacket.payload buf) = ARP_OP_REQUEST
      ∧ ArpPacket.get_sender_hw_addr (EthernetPacket.payload buf) =
          MacAddr.bytes ⟨1, 2, 3, 4, 5, 6⟩
      ∧ ArpPacket.get_sender_proto_addr (EthernetPacket.payload buf) = 3232235786
      ∧ ArpPacket.get_target_proto_addr (EthernetPacket.payload buf) = 3232235788
      ∧ ArpPacket.get_target_hw_addr (EthernetPacket.payload buf) = MacAddr.zero.bytes :=
  create_arp_request_fields ⟨1, 2, 3, 4, 5, 6⟩ 3232235786 3232235788
    (by decide) (by decide)

/-- C4: in a round, the remaining-target list contains each target
address not yet in the discovered map exactly once and already
discovered addresses zero times; one request frame is built per
remaining target; and the end-of-round sleep extends the round to
exactly its fixed time budget whenever sending finished early. -/
theorem arp_round_policy (interface : InterfaceInfo)
    (discovered : DiscoveryMap) (target_ips : List Nat)
    (hnd : target_ips.Nodup) :
    (∀ ip, (remainingTargets discovered target_ips).count ip =
        if ip ∈ target_ips ∧ discovered.lookup ip = none then 1 else 0)
    ∧ roundRequests interface discovered target_ips =
        (remainingTargets discovered target_ips).map
          (fun target_ip => create_arp_request interface.mac interface.ip target_ip)
    ∧ (∀ timeout_ms elapsed,
        elapsed + round_wait timeout_ms elapsed = max elapsed timeout_ms) := by
  refine ⟨?_, rfl, fun t e => by rw [round_wait]; omega⟩
  intro ip
  rw [remainingTargets]
  by_cases hl : discovered.lookup ip = none
  · rw [List.count_filter (by simp [hl])]
    by_cases hmem : ip ∈ target_ips
    · simp [hmem, hl, List.count_eq_one_of_mem hnd hmem]
    · simp [hmem, List.count_eq_zero_of_not_mem hmem]
  · have hnotmem : ip ∉ target_ips.filter (fun q => ! (discovered.lookup q).isSome) := by
      intro hmem2
      have hpred := (List.mem_filter.mp hmem2).2
      cases hcase : discovered.lookup ip with
      | none => exact hl hcase
      | some v => rw [hcase] at hpred; simp at hpred
    rw [List.count_eq_zero_of_not_mem hnotmem]
    simp [hl]

/-- C4 witness: with targets 192.168.1.5 and 192.168.1.6 and
192.168.1.6 already discovered, only 192.168.1.5 remains. -/
theorem arp_round_policy_witness :
    (∀ ip, (remainingTargets [(3232235782, [9, 9, 9, 9, 9, 9])]
        [3232235781, 3232235782]).count ip =
      if ip ∈ [3232235781, 3232235782]
          ∧ List.lookup ip [(3232235782, [9, 9, 9, 9, 9, 9])] = none
        then 1 else 0)
    ∧ roundRequests ⟨3232235786, 24, ⟨1, 2, 3, 4, 5, 6⟩⟩
        [(3232235782, [9, 9, 9, 9, 9, 9])] [3232235781, 3232235782] =
        (remainingTargets [(3232235782, [9, 9, 9, 9, 9, 9])]
          [3232235781, 3232235782]).map
          (fun target_ip => create_arp_request ⟨1, 2, 3, 4, 5, 6⟩ 3232235786 target_ip)
    ∧ (∀ timeout_ms elapsed,
        elapsed + round_wait timeout_ms elapsed = max elapsed timeout_ms) :=
  arp_round_policy ⟨3232235786, 24, ⟨1, 2, 3, 4, 5, 6⟩⟩
    [(3232235782, [9, 9, 9, 9, 9, 9])] [3232235781, 3232235782] (by decide)


/-! ## Lemmas about the latency prober -/

lemma findSome?_range_none (f : Nat → Option Nat) (n : Nat)
    (h : ∀ a, a < n → f a = none) : (List.range n).findSome? f = none := by
  rw [List.findSome?_eq_none_iff]
  intro x hx
  exact h x (List.mem_range.mp hx)

lemma findSome?_range_first (f : Nat → Option Nat) (n a t : Nat)
    (ha : a < n) (hfa : f a = some t) (hprev : ∀ b, b < a → f b = none) :
    (List.range n).findSome? f = some t := by
  have hdecomp : List.range n = List.range a ++ List.range' a (n - a) := by
    have happ := List.range'_append_1 0 a (n - a)
    rw [Nat.zero_add, show (n - a) + a = n from by omega] at happ
    rw [List.range_eq_range' n, List.range_eq_range' a, happ]
  obtain ⟨k, hk⟩ : ∃ k, n - a = k + 1 := ⟨n - a - 1, by omega⟩
  rw [hdecomp, hk, List.range'_succ, List.findSome?_append,
    findSome?_range_none f a hprev, Option.none_or, List.findSome?_cons, hfa]

lemma lookup_icmp_scan_times (retries : Nat) (echo : Nat → Nat → Option Nat)
    (arp_hosts : List Nat) (ip : Nat) :
    (icmp_scan_times retries echo arp_hosts).lookup ip =
      if ip ∈ arp_hosts then ping_host_with_retries retries (echo ip)
      else none := by
  induction arp_hosts with
  | nil => simp [icmp_scan_times]
  | cons h rest ih =>
    simp only [icmp_scan_times] at ih ⊢
    rw [List.filterMap_cons]
    by_cases hhip : h = ip
    · subst hhip
      cases hping : ping_host_with_retries retries (echo h) with
      | none =>
        simp only [hping, Option.map_none']
        rw [ih]
        simp [hping]
      | some d =>
        simp only [hping, Option.map_some']
        rw [List.lookup_cons]
        simp [hping]
    · have hne : ¬ ip = h := fun e => hhip e.symm
      cases hping : ping_host_with_retries retries (echo h) with
      | none =>
        simp only [hping, Option.map_none']
        rw [ih]
        simp [List.mem_cons, hne]
      | some d =>
        simp only [hping, Option.map_some']
        rw [List.lookup_cons]
        simp only [show (ip == h) = false from by simpa using hne]
        rw [ih]
        simp [List.mem_cons, hne]

/-- C6: a host answering no attempt is absent from the latency map (not
zero, not an error), and a host whose first successful attempt is
attempt `a` with elapsed time `t` is recorded with exactly that
attempt's elapsed time; attempts stop at the first success and never
exceed the retry count. -/
theorem icmp_latency_spec (retries : Nat) (echo : Nat → Nat → Option Nat)
    (arp_hosts : List Nat) (ip : Nat) (hmem : ip ∈ arp_hosts) :
    ((∀ a, a < retries → echo ip a = none) →
      (icmp_scan_times retries echo arp_hosts).lookup ip = none)
    ∧ (∀ a t, a < retries → echo ip a = some t →
        (∀ b, b < a → echo ip b = none) →
        (icmp_scan_times retries echo arp_hosts).lookup ip = some t) := by
  constructor
  · intro hfail
    rw [lookup_icmp_scan_times]
    simp [hmem, ping_host_with_retries, findSome?_range_none _ _ hfail]
  · intro a t ha hat hprev
    rw [lookup_icmp_scan_times]
    simp [hmem, ping_host_with_retries,
      findSome?_range_first (echo ip) retries a t ha hat hprev]

/-- C6 witness: with 3 retries, an echo facility failing attempts 0 and
1 and succeeding on attempt 2 after 7 units records latency 7 for host
192.168.1.5; one failing every attempt leaves the host absent. -/
theorem icmp_latency_spec_witness :
    ((∀ a, a < 3 → (fun (_ : Nat) (a : Nat) =>
        if a = 2 then some 7 else none) 3232235781 a = none) →
      (icmp_scan_times 3 (fun _ a => if a = 2 then some 7 else none)
        [3232235781]).lookup 3232235781 = none)
    ∧ (∀ a t, a < 3 →
        (fun (_ : Nat) (a : Nat) => if a = 2 then some 7 else none) 3232235781 a = some t →
        (∀ b, b < a → (fun (_ : Nat) (a : Nat) =>
          if a = 2 then some 7 else none) 3232235781 b = none) →
        (icmp_scan_times 3 (fun _ a => if a = 2 then some 7 else none)
          [3232235781]).lookup 3232235781 = some t) :=
  icmp_latency_spec 3 (fun _ a => if a = 2 then some 7 else none)
    [3232235781] 3232235781 (by decide)

/-- C7: when the echo client cannot be initialized, `icmp_scan` returns
a successful empty map together with the degradation warning; the
failure never surfaces as a scan error. -/
theorem icmp_client_failure_graceful (retries : Nat)
    (echo : Nat → Nat → Option Nat) (arp_hosts : List Nat)
    (hne : arp_hosts ≠ []) :
    icmp_scan false retries echo arp_hosts = (Except.ok [], true) := by
  rw [icmp_scan]
  simp [hne]

/-- C7 witness: client initialization failure over one discovered host. -/
theorem icmp_client_failure_graceful_witness :
    icmp_scan false 3 (fun _ _ => none) [3232235781] = (Except.ok [], true) :=
  icmp_client_failure_graceful 3 (fun _ _ => none) [3232235781] (by decide)

/-! ## Lemmas about the reception window -/

lemma receiverLoop_exit (subnet : Ipv4Network) (d : Nat)
    (events : List (Nat × Option (List Nat))) :
    ∀ (now : Nat) (map : DiscoveryMap),
      (∀ e, (receiverLoop subnet d now map events).2 = some e → d ≤ e)
      ∧ ((receiverLoop subnet d now map events).2 = none ↔
          (now < d ∧ ∀ te ∈ events, te.1 < d)) := by
  induction events with
  | nil =>
    intro now map
    constructor
    · intro e he
      simp only [receiverLoop] at he
      by_cases h : now < d
      · simp [h] at he
      · simp [h] at he
        omega
    · simp only [receiverLoop]
      by_cases h : now < d <;> simp [h]
  | cons te rest ih =>
    intro now map
    obtain ⟨t, ev⟩ := te
    constructor
    · intro e he
      simp only [receiverLoop] at he
      by_cases h : now < d
      · simp only [h, if_true] at he
        cases ev with
        | some p => exact (ih t _).1 e he
        | none => exact (ih t _).1 e he
      · simp [h] at he
        omega
    · simp only [receiverLoop]
      by_cases h : now < d
      · cases ev with
        | some p =>
          simp only [h, if_true]
          rw [(ih t _).2]
          simp only [List.mem_cons, h, true_and]
          constructor
          · rintro ⟨ht, hr⟩
            intro te hte
            cases hte with
            | inl hh => subst hh; exact ht
            | inr hh => exact hr te hh
          · intro hall
            exact ⟨hall (t, some p) (Or.inl rfl), fun te hte => hall te (Or.inr hte)⟩
        | none =>
          simp only [h, if_true]
          rw [(ih t _).2]
          simp only [List.mem_cons, h, true_and]
          constructor
          · rintro ⟨ht, hr⟩
            intro te hte
            cases hte with
            | inl hh => subst hh; exact ht
            | inr hh => exact hr te hh
          · intro hall
            exact ⟨hall (t, none) (Or.inl rfl), fun te hte => hall te (Or.inr hte)⟩
      · simp [h]

/-- C8 counterexample: with 3 rounds of 100 ms each, a receiver that
sees no frame and no receive error after the scan starts never observes
its deadline again: the reception loop stays blocked in `rx.next()`
(whose default configuration has no read timeout) and does not
terminate within the total timeout, so `active_arp_scan`, which joins
the receiver thread, does not return. -/
theorem arp_reception_no_event_blocks :
    (receiverLoop subnet0 (total_timeout 100 3) 0 [] []).2 = none := rfl

/-- C8 (amended): the reception deadline equals round count times the
per-round timeout plus a 500 ms grace period, and the deadline is
re-checked only between receptions: whenever the loop exits it does so
at the first reception instant at or after the deadline, and it fails
to exit exactly when every reception event (frame or receive error)
happens before the deadline — with no further event the loop blocks
past the deadline instead of terminating. -/
theorem arp_reception_deadline (subnet : Ipv4Network)
    (timeout_ms rounds now : Nat) (map : DiscoveryMap)
    (events : List (Nat × Option (List Nat))) :
    total_timeout timeout_ms rounds = timeout_ms * rounds + 500
    ∧ (∀ e, (receiverLoop subnet (now + total_timeout timeout_ms rounds)
          now map events).2 = some e →
        now + total_timeout timeout_ms rounds ≤ e)
    ∧ ((receiverLoop subnet (now + total_timeout timeout_ms rounds)
          now map events).2 = none ↔
        ∀ te ∈ events, te.1 < now + total_timeout timeout_ms rounds) := by
  refine ⟨rfl, (receiverLoop_exit subnet _ events now map).1, ?_⟩
  rw [(receiverLoop_exit subnet _ events now map).2]
  have hlt : now < now + total_timeout timeout_ms rounds := by
    rw [total_timeout]; omega
  simp [hlt]

/-- C8 witness: a receive error observed at instant 900 lets the loop
exit at 900, at or after its deadline of 800 = 100 × 3 + 500. -/
theorem arp_reception_deadline_witness :
    0 + total_timeout 100 3 ≤ 900 :=
  (arp_reception_deadline subnet0 100 3 0 [] [(900, none)]).2.1 900 (by decide)
